import Mathlib

/-!
Verification of the audio-sample analysis engine (`analyze_audio.py`).

The development shallowly embeds the four core components the specification
describes — the onset/peak-picking detector (`safe_onset_detect`), the
one-shot/loop evidence classifier (`detect_sample_type`), the tag generator
(`generate_tags`) and the worker request/response loop (`worker_loop`) — and
proves or refutes the specification's claims about them.

Python floats are modelled as rationals (`ℚ`): every constant in the source is
a short decimal, and every claim under study is about comparisons with fixed
thresholds and about control flow, none of which depend on binary rounding.
Values produced by the external numeric libraries (librosa, numpy routines
that return irrational reals such as `np.corrcoef` and `np.std`) are kept as
abstract inputs of the model, exactly as the specification's §6 treats those
libraries as external collaborators.
-/

/-! ## Numeric list helpers (models of the numpy primitives used) -/

/-- Model of `np.max` on a nonempty float array (`0` on the empty list; the
source only applies it to nonempty slices). -/
def maxQ : List ℚ → ℚ
  | [] => 0
  | x :: xs => xs.foldl max x

/-- Model of `np.min` on a nonempty float array (`0` on the empty list). -/
def minQ : List ℚ → ℚ
  | [] => 0
  | x :: xs => xs.foldl min x

/-- Model of the Python slice `l[a:b]` for `0 ≤ a ≤ b` (out-of-range bounds
clamp, exactly as in Python). -/
def sliceQ (l : List ℚ) (a b : ℕ) : List ℚ := (l.drop a).take (b - a)

/-- Model of `np.mean` (the source only applies it to nonempty slices). -/
def meanQ (l : List ℚ) : ℚ := l.sum / (l.length : ℚ)

/-- Helper for `argminQ`: scan carrying current index, best index, best value.
The best value is replaced only on a strict improvement, so the FIRST position
of the minimum wins, as with `np.argmin`. -/
def argminAux : List ℚ → ℕ → ℕ → ℚ → ℕ
  | [], _, bi, _ => bi
  | x :: xs, i, bi, bv =>
    if x < bv then argminAux xs (i + 1) i x else argminAux xs (i + 1) bi bv

/-- Model of `np.argmin`: index of the first occurrence of the minimum. -/
def argminQ : List ℚ → ℕ
  | [] => 0
  | x :: xs => argminAux xs 1 0 x

/-- Helper for `argmaxQ`; first position of the maximum wins, as with
`np.argmax`. -/
def argmaxAux : List ℚ → ℕ → ℕ → ℚ → ℕ
  | [], _, bi, _ => bi
  | x :: xs, i, bi, bv =>
    if bv < x then argmaxAux xs (i + 1) i x else argmaxAux xs (i + 1) bi bv

/-- Model of `np.argmax`: index of the first occurrence of the maximum. -/
def argmaxQ : List ℚ → ℕ
  | [] => 0
  | x :: xs => argmaxAux xs 1 0 x

/-! ## OnsetDetector: `safe_onset_detect`

Embedding of the pure peak-picking core of `safe_onset_detect`
(analyze_audio.py, lines 63–142).  The function is called by the rest of the
program with an explicit `onset_envelope` (or with an envelope computed by the
external `librosa.onset.onset_strength`), so the envelope is the input here.
The integer timing parameters `pre_max`, `post_max`, `pre_avg`, `post_avg`,
`wait` and the float threshold `delta` are passed explicitly.

`np.min` on a zero-size array raises `ValueError`, so the result type is
`Option`: `none` models the raised exception on an empty envelope. -/

/-- State of the peak-picking loop: accepted peaks (in acceptance order) and
`last_peak`, initialised to `-wait - 1` in the source, hence an integer. -/
structure PickState where
  peaks : List ℕ
  lastPeak : ℤ

/-- One iteration of the `for i in range(pre_max, n - post_max)` loop of
`safe_onset_detect`: the three-condition Böck-style peak test. -/
def pickStep (oenv : List ℚ) (preMax postMax preAvg postAvg wt : ℕ) (delta : ℚ)
    (s : PickState) (i : ℕ) : PickState :=
  if oenv.getD i 0 ≠ maxQ (sliceQ oenv (i - preMax) (min oenv.length (i + postMax + 1)))
    then s
  else if oenv.getD i 0 <
      meanQ (sliceQ oenv (i - preAvg) (min oenv.length (i + postAvg + 1))) + delta then s
  else if (i : ℤ) - s.lastPeak ≤ (wt : ℤ) then s
  else { peaks := s.peaks ++ [i], lastPeak := (i : ℤ) }

/-- The peak-picking loop over candidate indices `pre_max ≤ i < n - post_max`. -/
def peakPick (oenv : List ℚ) (preMax postMax preAvg postAvg wt : ℕ) (delta : ℚ) :
    List ℕ :=
  ((List.range' preMax (oenv.length - postMax - preMax)).foldl
    (pickStep oenv preMax postMax preAvg postAvg wt delta)
    { peaks := [], lastPeak := -(wt : ℤ) - 1 }).peaks

/-- The min/max normalisation `(oenv - min) / (max - min)` of the envelope. -/
def normalizeEnv (env : List ℚ) : List ℚ :=
  env.map (fun x => (x - minQ env) / (maxQ env - minQ env))

/-- Embedding of `safe_onset_detect` with `units='frames'` and
`backtrack=False` (the defaults used throughout the program).  `none` models
the `ValueError` that `np.min` raises on an empty envelope; a flat envelope
(`max == min`) returns the empty event set. -/
def safe_onset_detect (env : List ℚ) (preMax postMax preAvg postAvg wt : ℕ)
    (delta : ℚ) : Option (List ℕ) :=
  if env.isEmpty then none
  else if minQ env < maxQ env then
    some (peakPick (normalizeEnv env) preMax postMax preAvg postAvg wt delta)
  else some []

/-- Backtracking step of `safe_onset_detect`: each accepted frame is moved to
the position of the first minimum of the energy curve over
`energy[max(0, frame - 2*pre_max) : frame + 1]`.  The energy curve is
`librosa.feature.rms(y)[0]`, an external input. -/
def onsetBacktrack (energy : List ℚ) (preMax : ℕ) (frames : List ℕ) : List ℕ :=
  frames.map (fun f =>
    let searchStart := f - 2 * preMax
    let segment := sliceQ energy searchStart (f + 1)
    if 0 < segment.length then searchStart + argminQ segment else f)

/-- Embedding of `safe_onset_detect` with `backtrack=True` (and `y` present,
so that the energy curve exists). -/
def safe_onset_detect_backtrack (env energy : List ℚ)
    (preMax postMax preAvg postAvg wt : ℕ) (delta : ℚ) : Option (List ℕ) :=
  (safe_onset_detect env preMax postMax preAvg postAvg wt delta).map
    (fun frames => if frames.isEmpty then frames else onsetBacktrack energy preMax frames)

/-! ### Invariant of the peak-picking loop (claim C4) -/

/-- Loop invariant: the accepted peaks are pairwise separated by more than
`wait`, and every accepted peak is at most `last_peak`. -/
def PickInv (wt : ℕ) (s : PickState) : Prop :=
  List.Pairwise (fun a b => a < b ∧ a + wt < b) s.peaks ∧
    ∀ x ∈ s.peaks, (x : ℤ) ≤ s.lastPeak

theorem pickStep_inv (oenv : List ℚ) (preMax postMax preAvg postAvg wt : ℕ)
    (delta : ℚ) (s : PickState) (i : ℕ) (h : PickInv wt s) :
    PickInv wt (pickStep oenv preMax postMax preAvg postAvg wt delta s i) := by
  unfold pickStep
  by_cases h1 : oenv.getD i 0
      ≠ maxQ (sliceQ oenv (i - preMax) (min oenv.length (i + postMax + 1)))
  · rw [if_pos h1]; exact h
  · rw [if_neg h1]
    by_cases h2 : oenv.getD i 0 <
        meanQ (sliceQ oenv (i - preAvg) (min oenv.length (i + postAvg + 1))) + delta
    · rw [if_pos h2]; exact h
    · rw [if_neg h2]
      by_cases h3 : (i : ℤ) - s.lastPeak ≤ (wt : ℤ)
      · rw [if_pos h3]; exact h
      · rw [if_neg h3]
        obtain ⟨hpw, hle⟩ := h
        have hlt : s.lastPeak + (wt : ℤ) < (i : ℤ) := by omega
        constructor
        · rw [List.pairwise_append]
          refine ⟨hpw, List.pairwise_singleton _ _, ?_⟩
          intro a ha b hb
          have hb' : b = i := by simpa using hb
          rw [hb']
          have hai : (a : ℤ) + (wt : ℤ) < (i : ℤ) :=
            lt_of_le_of_lt (by have := hle a ha; omega) hlt
          have hawi : a + wt < i := by exact_mod_cast hai
          exact ⟨by omega, hawi⟩
        · intro x hx
          rcases List.mem_append.mp hx with hx' | hx'
          · have := hle x hx'
            simp only
            omega
          · have hx'' : x = i := by simpa using hx'
            subst hx''
            simp

theorem foldl_preserves {α β : Type} {P : β → Prop} (f : β → α → β)
    (hf : ∀ s a, P s → P (f s a)) :
    ∀ (l : List α) (s : β), P s → P (l.foldl f s)
  | [], _, hs => hs
  | a :: l, s, hs => foldl_preserves f hf l (f s a) (hf s a hs)

theorem peakPick_pairwise (oenv : List ℚ) (preMax postMax preAvg postAvg wt : ℕ)
    (delta : ℚ) :
    List.Pairwise (fun a b => a < b ∧ a + wt < b)
      (peakPick oenv preMax postMax preAvg postAvg wt delta) := by
  have h := foldl_preserves (P := PickInv wt)
    (pickStep oenv preMax postMax preAvg postAvg wt delta)
    (fun s a hs => pickStep_inv oenv preMax postMax preAvg postAvg wt delta s a hs)
    (List.range' preMax (oenv.length - postMax - preMax))
    { peaks := [], lastPeak := -(wt : ℤ) - 1 }
    ⟨List.Pairwise.nil, by intro x hx; simp at hx⟩
  exact h.1

/-- C4 (amended): with backtracking disabled, the event set returned by
`safe_onset_detect` is strictly increasing and any two returned indices are
separated by strictly more than the configured minimum wait. -/
theorem safe_onset_detect_eventset_invariant (env : List ℚ)
    (preMax postMax preAvg postAvg wt : ℕ) (delta : ℚ) (r : List ℕ)
    (h : safe_onset_detect env preMax postMax preAvg postAvg wt delta = some r) :
    List.Pairwise (fun a b => a < b ∧ a + wt < b) r := by
  unfold safe_onset_detect at h
  split at h
  · exact absurd h (by simp)
  · split at h
    · have hr : peakPick (normalizeEnv env) preMax postMax preAvg postAvg wt delta = r :=
        Option.some.inj h
      rw [← hr]
      exact peakPick_pairwise _ _ _ _ _ _ _
    · have hr : ([] : List ℕ) = r := Option.some.inj h
      rw [← hr]
      exact List.Pairwise.nil

theorem safe_onset_detect_eventset_invariant_witness :
    safe_onset_detect [0, 0, 1, 0, 0, 1, 0, 1/2] 2 1 1 1 1 (7/100) = some [2, 5] ∧
      List.Pairwise (fun a b => a < b ∧ a + 1 < b) [2, 5] := by
  have he : safe_onset_detect [0, 0, 1, 0, 0, 1, 0, 1/2] 2 1 1 1 1 (7/100)
      = some [2, 5] := by
    norm_num [safe_onset_detect, normalizeEnv, peakPick, pickStep, minQ, maxQ, sliceQ,
      meanQ, List.range']
  exact ⟨he, safe_onset_detect_eventset_invariant _ 2 1 1 1 1 (7/100) [2, 5] he⟩

/-- C4 (counterexample): with backtracking enabled the invariant fails — two
accepted peaks can be backtracked to the same energy minimum, so the returned
event set `[1, 1]` is neither strictly increasing nor separated by the wait. -/
theorem safe_onset_detect_backtrack_violates_invariant :
    safe_onset_detect_backtrack [0, 0, 1, 0, 0, 1, 0, 1/2] [5, 0, 5, 5, 5, 5, 5, 5]
        2 1 1 1 1 (7/100) = some [1, 1] ∧
      ¬ List.Pairwise (fun a b : ℕ => a < b ∧ a + 1 < b) [1, 1] := by
  constructor
  · norm_num [safe_onset_detect_backtrack, safe_onset_detect, normalizeEnv, peakPick,
      pickStep, minQ, maxQ, sliceQ, meanQ, List.range', onsetBacktrack, argminQ, argminAux,
      List.isEmpty]
  · intro hp
    rcases List.pairwise_cons.mp hp with ⟨h1, _⟩
    have := h1 1 (by simp)
    omega

/-! ### Rescaling invariance (claim C5) -/

theorem foldl_min_map_mul (c : ℚ) (hc : 0 ≤ c) :
    ∀ (l : List ℚ) (a : ℚ), (l.map (fun x => c * x)).foldl min (c * a) = c * l.foldl min a
  | [], _ => rfl
  | x :: xs, a => by
    simp only [List.map_cons, List.foldl_cons]
    rw [← mul_min_of_nonneg _ _ hc]
    exact foldl_min_map_mul c hc xs (min a x)

theorem foldl_max_map_mul (c : ℚ) (hc : 0 ≤ c) :
    ∀ (l : List ℚ) (a : ℚ), (l.map (fun x => c * x)).foldl max (c * a) = c * l.foldl max a
  | [], _ => rfl
  | x :: xs, a => by
    simp only [List.map_cons, List.foldl_cons]
    rw [← mul_max_of_nonneg _ _ hc]
    exact foldl_max_map_mul c hc xs (max a x)

theorem minQ_map_mul (c : ℚ) (hc : 0 ≤ c) (l : List ℚ) :
    minQ (l.map (fun x => c * x)) = c * minQ l := by
  cases l with
  | nil => simp [minQ]
  | cons x xs => simpa [minQ] using foldl_min_map_mul c hc xs x

theorem maxQ_map_mul (c : ℚ) (hc : 0 ≤ c) (l : List ℚ) :
    maxQ (l.map (fun x => c * x)) = c * maxQ l := by
  cases l with
  | nil => simp [maxQ]
  | cons x xs => simpa [maxQ] using foldl_max_map_mul c hc xs x

theorem normalizeEnv_map_mul (c : ℚ) (hc : 0 < c) (l : List ℚ) :
    normalizeEnv (l.map (fun x => c * x)) = normalizeEnv l := by
  unfold normalizeEnv
  rw [minQ_map_mul c hc.le, maxQ_map_mul c hc.le, List.map_map]
  refine List.map_congr_left ?_
  intro a _
  show (c * a - c * minQ l) / (c * maxQ l - c * minQ l) = (a - minQ l) / (maxQ l - minQ l)
  rw [← mul_sub, ← mul_sub, mul_div_mul_left _ _ (ne_of_gt hc)]

/-- C5: `safe_onset_detect` is invariant under uniform positive rescaling of
the input envelope, with or without backtracking (the normalisation step makes
the scale factor cancel). -/
theorem safe_onset_detect_scale_invariant (env : List ℚ) (c : ℚ)
    (preMax postMax preAvg postAvg wt : ℕ) (delta : ℚ) (hc : 0 < c) :
    safe_onset_detect (env.map (fun x => c * x)) preMax postMax preAvg postAvg wt delta
        = safe_onset_detect env preMax postMax preAvg postAvg wt delta ∧
      ∀ energy : List ℚ,
        safe_onset_detect_backtrack (env.map (fun x => c * x)) energy
            preMax postMax preAvg postAvg wt delta
          = safe_onset_detect_backtrack env energy preMax postMax preAvg postAvg wt delta := by
  have hmain : safe_onset_detect (env.map (fun x => c * x)) preMax postMax preAvg postAvg
      wt delta = safe_onset_detect env preMax postMax preAvg postAvg wt delta := by
    unfold safe_onset_detect
    rw [minQ_map_mul c hc.le, maxQ_map_mul c hc.le, normalizeEnv_map_mul c hc]
    have hlt : (c * minQ env < c * maxQ env) ↔ (minQ env < maxQ env) :=
      mul_lt_mul_left hc
    have hemp : (env.map (fun x => c * x)).isEmpty = env.isEmpty := by
      cases env <;> simp
    rw [hemp]
    by_cases h1 : env.isEmpty = true
    · simp [h1]
    · simp only [h1, if_false]
      by_cases h2 : minQ env < maxQ env
      · rw [if_pos (hlt.mpr h2), if_pos h2]
      · rw [if_neg (fun hx => h2 (hlt.mp hx)), if_neg h2]
  exact ⟨hmain, fun energy => by unfold safe_onset_detect_backtrack; rw [hmain]⟩

theorem safe_onset_detect_scale_invariant_witness :
    (0 : ℚ) < 2 ∧
      safe_onset_detect ([0, 0, 1, 0, 0, 1, 0, 1/2].map (fun x => 2 * x)) 2 1 1 1 1 (7/100)
        = safe_onset_detect [0, 0, 1, 0, 0, 1, 0, 1/2] 2 1 1 1 1 (7/100) :=
  ⟨by norm_num,
    (safe_onset_detect_scale_invariant [0, 0, 1, 0, 0, 1, 0, 1/2] 2 2 1 1 1 1 (7/100)
      (by norm_num)).1⟩

/-! ### Degenerate inputs (claim C7) -/

/-- C7 (counterexample): on the empty envelope `safe_onset_detect` raises
(`np.min` of a zero-size array raises `ValueError`), modelled as `none`; the
claim's empty event set would be `some []`. -/
theorem safe_onset_detect_empty_raises :
    safe_onset_detect [] 1 1 4 5 1 (7/100) = none := rfl

/-- C7 (amended): for a nonempty envelope that is flat (`max ≤ min`) or too
short to contain any candidate index, `safe_onset_detect` returns the empty
event set rather than raising. -/
theorem safe_onset_detect_degenerate (env : List ℚ)
    (preMax postMax preAvg postAvg wt : ℕ) (delta : ℚ) (hne : env ≠ [])
    (h : ¬ minQ env < maxQ env ∨ env.length ≤ preMax + postMax) :
    safe_onset_detect env preMax postMax preAvg postAvg wt delta = some [] := by
  unfold safe_onset_detect
  rw [if_neg (by simpa using hne)]
  rcases h with hflat | hshort
  · rw [if_neg hflat]
  · by_cases h2 : minQ env < maxQ env
    · rw [if_pos h2]
      have hcount : (normalizeEnv env).length - postMax - preMax = 0 := by
        have hlen : (normalizeEnv env).length = env.length := by
          simp [normalizeEnv]
        omega
      have : peakPick (normalizeEnv env) preMax postMax preAvg postAvg wt delta = [] := by
        unfold peakPick
        rw [hcount]
        rfl
      rw [this]
    · rw [if_neg h2]

theorem safe_onset_detect_degenerate_witness :
    (([5, 5, 5] : List ℚ) ≠ [] ∧ ¬ minQ [5, 5, 5] < maxQ [(5 : ℚ), 5, 5]) ∧
      safe_onset_detect [5, 5, 5] 1 1 4 5 1 (7/100) = some [] := by
  have h1 : ([5, 5, 5] : List ℚ) ≠ [] := by simp
  have h2 : ¬ minQ [5, 5, 5] < maxQ [(5 : ℚ), 5, 5] := by
    norm_num [minQ, maxQ]
  exact ⟨⟨h1, h2⟩, safe_onset_detect_degenerate [5, 5, 5] 1 1 4 5 1 (7/100) h1 (Or.inl h2)⟩

/-! ## EvidenceClassifier: `detect_sample_type`

Embedding of `detect_sample_type` (analyze_audio.py, lines 449–686).  The
waveform-derived quantities that the classifier obtains from the external
libraries (the RMS envelope from `librosa.feature.rms`, the onset-strength
envelope from `librosa.onset.onset_strength`, the onset frames produced by the
internal `safe_onset_detect` calls on `y`, the Pearson coefficient from
`np.corrcoef` and the standard deviation from `np.std`, both of which are
irrational-valued) are abstract inputs collected in `Signal`.  Every evidence
rule of the source compares these quantities against fixed thresholds and adds
a fixed weight; the claims under study quantify over all inputs, so nothing is
lost by letting the external measurements range over `ℚ`. -/

/-- Substring test helper: does the second list start with the first? -/
def charsStartsWith : List Char → List Char → Bool
  | [], _ => true
  | _ :: _, [] => false
  | a :: as, b :: bs => a == b && charsStartsWith as bs

/-- Substring containment on characters: the Python `pat in hay`. -/
def charsContains : List Char → List Char → Bool
  | [], pat => pat.isEmpty
  | c :: rest, pat => charsStartsWith pat (c :: rest) || charsContains rest pat

/-- Python substring containment `pat in hay` on strings. -/
def substrB (pat hay : String) : Bool := charsContains hay.toList pat.toList

/-- Does the character list start with the literal `bpm`? -/
def isBpmHere : List Char → Bool
  | 'b' :: 'p' :: 'm' :: _ => true
  | _ => false

/-- After the digits of the BPM pattern: zero or more whitespace characters
followed by `bpm`. -/
def matchSpacesBpm : List Char → Bool
  | [] => false
  | c :: rest => isBpmHere (c :: rest) || (c.isWhitespace && matchSpacesBpm rest)

/-- After at least one digit: more digits, or optional whitespace then `bpm`. -/
def matchAfterDigits : List Char → Bool
  | [] => false
  | c :: rest =>
    isBpmHere (c :: rest) || (c.isWhitespace && matchSpacesBpm rest)
      || (c.isDigit && matchAfterDigits rest)

/-- Model of `re.search(r'\d+\s*bpm', s)`: some position starts one or more
digits, optional whitespace, then `bpm`.  (`\s` is modelled by
`Char.isWhitespace`; the filenames involved are ASCII.) -/
def hasBpmPattern : List Char → Bool
  | [] => false
  | c :: rest => (c.isDigit && matchAfterDigits rest) || hasBpmPattern rest

/-- The percussion-instrument keywords of `detect_sample_type`. -/
def percKeywords : List String :=
  ["kick", "snare", "hat", "hihat", "hi-hat", "hh",
   "crash", "ride", "tom", "clap", "rim", "shaker",
   "tambourine", "cowbell", "perc", "conga", "bongo",
   "cymbal", "openhat", "closedhat", "oh", "ch"]

/-- The generic one-shot keywords of `detect_sample_type`. -/
def osKeywords : List String :=
  ["shot", "hit", "one", "single", "oneshot", "one-shot",
   "one_shot", "stab", "impact", "fx", "riser", "sweep",
   "boom", "whoosh", "transition"]

/-- The loop keywords of `detect_sample_type`. -/
def loopKeywords : List String := ["loop", "beat", "groove", "pattern", "break", "fill"]

/-- Does any of the keywords occur in the (already lowercased) string? -/
def anyKeyword (kws : List String) (s : String) : Bool := kws.any (fun kw => substrB kw s)

/-- One pre-computed instrument prediction (`{'name': …, 'confidence': …}`). -/
structure InstrPred where
  name : String
  confidence : ℚ

/-- Python truthiness of the optional filename (`if filename:`): present and
nonempty. -/
def fnameTruthy : Option String → Bool
  | some s => !s.isEmpty
  | none => false

/-- `filename.lower()` of the optional filename (only consulted when truthy). -/
def fnameLower (filename : Option String) : String := (filename.getD "").toLower

/-- Python truthiness of the optional prediction list
(`if instrument_predictions:`): present and nonempty. -/
def predsTruthy : Option (List InstrPred) → Bool
  | some l => !l.isEmpty
  | none => false

/-- Filename keyword scores: percussion keyword → one-shot += 5 (and marks
the sample as percussion), one-shot keyword → += 4, loop keyword →
loop += 4.  All zero when the filename is absent or empty. -/
structure KwScores where
  osAdd : ℚ
  loopAdd : ℚ
  isPerc : Bool

def fnameScores (filename : Option String) : KwScores :=
  if fnameTruthy filename then
    { osAdd := (if anyKeyword percKeywords (fnameLower filename) then 5 else 0)
        + (if anyKeyword osKeywords (fnameLower filename) then 4 else 0),
      loopAdd := if anyKeyword loopKeywords (fnameLower filename) then 4 else 0,
      isPerc := anyKeyword percKeywords (fnameLower filename) }
  else { osAdd := 0, loopAdd := 0, isPerc := false }

/-- Does some prediction have confidence ≥ 0.60 and a percussion keyword in
its lowercased name?  (The source loop applies the bonus at most once and
breaks, so only existence matters.) -/
def instrPercHit (preds : Option (List InstrPred)) : Bool :=
  (preds.getD []).any (fun p =>
    decide ((3/5 : ℚ) ≤ p.confidence) && anyKeyword percKeywords p.name.toLower)

/-- The one-shot bonus from instrument predictions: 4 when the predictions are
truthy, the filename did not already mark percussion, and some prediction is a
high-confidence percussion hit. -/
def instrBonus (preds : Option (List InstrPred)) (isPercFromFname : Bool) : ℚ :=
  if predsTruthy preds && !isPercFromFname && instrPercHit preds then 4 else 0

/-- `is_percussion_sample` after both the filename check and the
instrument-prediction check. -/
def isPercussionSample (filename : Option String) (preds : Option (List InstrPred)) : Bool :=
  (fnameScores filename).isPerc ||
    (predsTruthy preds && !(fnameScores filename).isPerc && instrPercHit preds)

/-- The waveform-derived inputs of `detect_sample_type`, produced by the
external numeric libraries (spec §6 collaborators).  `none` in the `Option`
fields models a raised-and-caught exception (or a NaN correlation). -/
structure Signal where
  /-- `librosa.feature.rms(y=y)[0]`. -/
  rms : List ℚ
  /-- Frames from `safe_onset_detect(y=y, sr=sr, units='frames', hop_length=512,
  delta=0.15)`; `none` models the caught exception. -/
  onsetStrict : Option (List ℕ)
  /-- `np.corrcoef(start_segment, end_segment)[0, 1]`; `none` models NaN or a
  raised-and-caught exception. -/
  corr : Option ℚ
  /-- `np.std(rms_trimmed)` (irrational-valued external measurement). -/
  stdTrimmed : ℚ
  /-- `librosa.onset.onset_strength(y=y, sr=sr)`. -/
  onsetEnv : List ℚ
  /-- Frames from `safe_onset_detect(y=y, sr=sr, units='frames',
  hop_length=512)` with the default delta; `none` models the caught
  exception. -/
  onsets : Option (List ℕ)

/-- The trimmed RMS envelope: union of the 3%-of-peak active region and the
span of the detected onsets, kept only when at least 10 frames long. -/
def rmsTrimmed (rms : List ℚ) (onsetStrict : Option (List ℕ)) : List ℚ :=
  if 10 < rms.length then
    let active := (List.range rms.length).filter (fun i => maxQ rms * (3/100) < rms.getD i 0)
    let rmsStart := if 2 ≤ active.length then active.headD 0 else 0
    let rmsEnd := if 2 ≤ active.length then active.getLastD 0 else rms.length - 1
    let onsetFrames := onsetStrict.getD []
    let onsetStart := if 1 ≤ onsetFrames.length then onsetFrames.headD 0 else rmsStart
    let onsetEnd := if 1 ≤ onsetFrames.length then onsetFrames.getLastD 0 else rmsEnd
    let trimStart := min rmsStart onsetStart
    let trimEnd := max rmsEnd onsetEnd + 1
    if 10 ≤ trimEnd - trimStart then sliceQ rms trimStart trimEnd else rms
  else rms

/-- Evidence 1a: one-shot += 1.5 when trimming removed more than 25% of the
RMS frames. -/
def trimScore (rms : List ℚ) (onsetStrict : Option (List ℕ)) : ℚ :=
  if 10 < rms.length then
    if ((rmsTrimmed rms onsetStrict).length : ℚ) / (rms.length : ℚ) < 3/4 then 3/2 else 0
  else 0

/-- Evidence 1b on the trimmed envelope: early peak with strong decay or a
late riser peak → one-shot; very flat envelope → weak loop.  `stdT` is the
external `np.std(rms_trimmed)`. -/
def shapeScores (t : List ℚ) (stdT : ℚ) : ℚ × ℚ :=
  if 10 < t.length then
    let peakIdx := argmaxQ t
    let peakPosRatio : ℚ := (peakIdx : ℚ) / (t.length : ℚ)
    let tailStart := min (peakIdx + 5) (t.length - 1)
    let tailMean := meanQ (t.drop tailStart) + 1/100000000
    let peakTailRatio := t.getD peakIdx 0 / tailMean
    ((if peakPosRatio < 3/10 ∧ 3 < peakTailRatio then 2
      else if 8/10 < peakPosRatio then 3/2 else 0),
     (if peakTailRatio < 13/10 ∧ stdT / (meanQ t + 1/100000000) < 3/20 then 1 else 0))
  else (0, 0)

/-- Evidence 2: start/end similarity of the trimmed envelope.  `n` is the
trimmed length; both segments have length `min (max 2 (n*8/100)) n`, so the
source's equal-length test always holds and the guard reduces to the length
being above 2.  `corr` is the external Pearson coefficient. -/
def corrScores (corr : Option ℚ) (n : ℕ) : ℚ × ℚ :=
  if min (max 2 (n * 8 / 100)) n = min (max 2 (n * 8 / 100)) n
      ∧ 2 < min (max 2 (n * 8 / 100)) n then
    match corr with
    | some c => if c < 3/10 then (3/2, 0) else if 17/20 < c then (0, 1) else (0, 0)
    | none => (0, 0)
  else (0, 0)

/-- Lag-`lag` raw autocorrelation `Σ env[i] * env[i+lag]`, the nonnegative-lag
half of `np.correlate(env, env, mode='full')`. -/
def acLag (env : List ℚ) (lag : ℕ) : ℚ :=
  ((List.range (env.length - lag)).map (fun i => env.getD i 0 * env.getD (i + lag) 0)).sum

/-- Evidence 3: onset-envelope autocorrelation periodicity, normalised by the
zero-lag value, skipping the first 10% of lags. -/
def autocorrScores (env : List ℚ) : ℚ × ℚ :=
  if 20 < env.length then
    let ac := (List.range env.length).map (fun lag => acLag env lag)
    if 1 < ac.length then
      let normd := ac.map (fun x => x / (ac.headD 0 + 1/100000000))
      let tailLags := normd.drop (max 2 (env.length / 10))
      if 0 < tailLags.length then
        (if 13/20 < maxQ tailLags then ((0 : ℚ), (3/2 : ℚ))
         else if maxQ tailLags < 3/10 then (1, 0) else (0, 0))
      else (0, 0)
    else (0, 0)
  else (0, 0)

/-- Evidence 4: onset count — at most one onset is decisive one-shot evidence,
four or more (with duration above 2s) weak loop evidence; a raised-and-caught
onset detection contributes nothing. -/
def onsetScores (onsets : Option (List ℕ)) (duration : ℚ) : ℚ × ℚ :=
  match onsets with
  | none => (0, 0)
  | some frames =>
    if frames.length ≤ 1 then (2, 0)
    else if 4 ≤ frames.length ∧ 2 < duration then (0, 1/2) else (0, 0)

/-- Evidence 5: duration prior. -/
def durationScores (duration : ℚ) : ℚ × ℚ :=
  if duration < 1 then (1, 0) else if 8 < duration then (0, 1/2) else (0, 0)

/-- The accumulated `(one_shot_score, loop_score)` pair of `detect_sample_type`
for inputs with duration ≥ 2.0 (each evidence rule's condition is independent
of the running scores, so the sequential `+=` accumulation is their sum). -/
def finalScores (duration : ℚ) (filename : Option String) (preds : Option (List InstrPred))
    (sig : Signal) : ℚ × ℚ :=
  let kw := fnameScores filename
  let t := rmsTrimmed sig.rms sig.onsetStrict
  let sh := shapeScores t sig.stdTrimmed
  let co := corrScores sig.corr t.length
  let au := autocorrScores sig.onsetEnv
  let oc := onsetScores sig.onsets duration
  let du := durationScores duration
  (kw.osAdd + instrBonus preds kw.isPerc + trimScore sig.rms sig.onsetStrict
     + sh.1 + co.1 + au.1 + oc.1 + du.1,
   kw.loopAdd + sh.2 + co.2 + au.2 + oc.2 + du.2)

/-- The percussion override: percussion evidence fired, the filename is
present and truthy, and it shows neither a loop keyword nor a BPM pattern. -/
def percOverride (isPerc : Bool) (filename : Option String) : Bool :=
  isPerc && fnameTruthy filename &&
    !(anyKeyword loopKeywords (fnameLower filename)
      || hasBpmPattern (fnameLower filename).toList)

/-- The final decision of `detect_sample_type`: under the percussion override
a loop needs `loop_score > 8.0` (and `> one_shot_score`); otherwise
`loop_score ≥ 3.0` and `> one_shot_score`; the default is one-shot.  Returns
`(is_one_shot, is_loop)`. -/
def decideType (osScore loopScore : ℚ) (override : Bool) : Bool × Bool :=
  if override then
    if 8 < loopScore ∧ osScore < loopScore then (false, true) else (true, false)
  else
    if 3 ≤ loopScore ∧ osScore < loopScore then (false, true) else (true, false)

/-- `confidence = |one_shot_score - loop_score| / (one_shot_score + loop_score
+ 1e-8)`. -/
def confidenceOf (osScore loopScore : ℚ) : ℚ :=
  |osScore - loopScore| / (osScore + loopScore + 1/100000000)

/-- Embedding of `detect_sample_type`: returns `(is_one_shot, is_loop,
confidence)`. -/
def detect_sample_type (duration : ℚ) (filename : Option String)
    (preds : Option (List InstrPred)) (sig : Signal) : Bool × Bool × ℚ :=
  if duration < 2 then (true, false, 1)
  else
    ((decideType (finalScores duration filename preds sig).1
        (finalScores duration filename preds sig).2
        (percOverride (isPercussionSample filename preds) filename)).1,
     (decideType (finalScores duration filename preds sig).1
        (finalScores duration filename preds sig).2
        (percOverride (isPercussionSample filename preds) filename)).2,
     confidenceOf (finalScores duration filename preds sig).1
       (finalScores duration filename preds sig).2)

/-! ### Score nonnegativity -/

theorem fnameScores_osAdd_nonneg (filename : Option String) :
    0 ≤ (fnameScores filename).osAdd := by
  unfold fnameScores
  split
  · exact add_nonneg (by split <;> norm_num) (by split <;> norm_num)
  · norm_num

theorem fnameScores_loopAdd_nonneg (filename : Option String) :
    0 ≤ (fnameScores filename).loopAdd := by
  unfold fnameScores
  split
  · dsimp only
    split <;> norm_num
  · norm_num

theorem instrBonus_nonneg (preds : Option (List InstrPred)) (b : Bool) :
    0 ≤ instrBonus preds b := by
  unfold instrBonus
  split <;> norm_num

theorem trimScore_nonneg (rms : List ℚ) (onsetStrict : Option (List ℕ)) :
    0 ≤ trimScore rms onsetStrict := by
  unfold trimScore
  split
  · split <;> norm_num
  · norm_num

theorem shapeScores_fst_nonneg (t : List ℚ) (stdT : ℚ) : 0 ≤ (shapeScores t stdT).1 := by
  unfold shapeScores
  split
  · dsimp only
    split
    · norm_num
    · split <;> norm_num
  · norm_num

theorem shapeScores_snd_nonneg (t : List ℚ) (stdT : ℚ) : 0 ≤ (shapeScores t stdT).2 := by
  unfold shapeScores
  split
  · dsimp only
    split <;> norm_num
  · norm_num

theorem corrScores_fst_nonneg (c : Option ℚ) (n : ℕ) : 0 ≤ (corrScores c n).1 := by
  unfold corrScores
  split
  · cases c with
    | none => norm_num
    | some x =>
      dsimp only
      split
      · norm_num
      · split <;> norm_num
  · norm_num

theorem corrScores_snd_nonneg (c : Option ℚ) (n : ℕ) : 0 ≤ (corrScores c n).2 := by
  unfold corrScores
  split
  · cases c with
    | none => norm_num
    | some x =>
      dsimp only
      split
      · norm_num
      · split <;> norm_num
  · norm_num

theorem autocorrScores_fst_nonneg (env : List ℚ) : 0 ≤ (autocorrScores env).1 := by
  unfold autocorrScores
  split
  · dsimp only
    split
    · split
      · split
        · norm_num
        · split <;> norm_num
      · norm_num
    · norm_num
  · norm_num

theorem autocorrScores_snd_nonneg (env : List ℚ) : 0 ≤ (autocorrScores env).2 := by
  unfold autocorrScores
  split
  · dsimp only
    split
    · split
      · split
        · norm_num
        · split <;> norm_num
      · norm_num
    · norm_num
  · norm_num

theorem onsetScores_fst_nonneg (onsets : Option (List ℕ)) (duration : ℚ) :
    0 ≤ (onsetScores onsets duration).1 := by
  unfold onsetScores
  cases onsets with
  | none => norm_num
  | some frames =>
    dsimp only
    split
    · norm_num
    · split <;> norm_num

theorem onsetScores_snd_nonneg (onsets : Option (List ℕ)) (duration : ℚ) :
    0 ≤ (onsetScores onsets duration).2 := by
  unfold onsetScores
  cases onsets with
  | none => norm_num
  | some frames =>
    dsimp only
    split
    · norm_num
    · split <;> norm_num

theorem durationScores_fst_nonneg (duration : ℚ) : 0 ≤ (durationScores duration).1 := by
  unfold durationScores
  split
  · norm_num
  · split <;> norm_num

theorem durationScores_snd_nonneg (duration : ℚ) : 0 ≤ (durationScores duration).2 := by
  unfold durationScores
  split
  · norm_num
  · split <;> norm_num

/-- Both accumulated scores are nonnegative: every evidence rule adds a fixed
nonnegative weight to an accumulator that starts at zero. -/
theorem finalScores_nonneg (duration : ℚ) (filename : Option String)
    (preds : Option (List InstrPred)) (sig : Signal) :
    0 ≤ (finalScores duration filename preds sig).1 ∧
      0 ≤ (finalScores duration filename preds sig).2 := by
  unfold finalScores
  dsimp only
  constructor
  · exact add_nonneg (add_nonneg (add_nonneg (add_nonneg (add_nonneg
      (add_nonneg (add_nonneg (fnameScores_osAdd_nonneg filename)
        (instrBonus_nonneg preds _)) (trimScore_nonneg _ _))
      (shapeScores_fst_nonneg _ _)) (corrScores_fst_nonneg _ _))
      (autocorrScores_fst_nonneg _)) (onsetScores_fst_nonneg _ _))
      (durationScores_fst_nonneg _)
  · exact add_nonneg (add_nonneg (add_nonneg (add_nonneg (add_nonneg
      (fnameScores_loopAdd_nonneg filename) (shapeScores_snd_nonneg _ _))
      (corrScores_snd_nonneg _ _)) (autocorrScores_snd_nonneg _))
      (onsetScores_snd_nonneg _ _)) (durationScores_snd_nonneg _)

/-! ### Claims C1, C2, C3, C6 about the classifier -/

/-- A concrete trivial signal used by the witnesses. -/
def emptySignal : Signal :=
  { rms := [], onsetStrict := none, corr := none, stdTrimmed := 0,
    onsetEnv := [], onsets := none }

/-- C2: for duration strictly below 2.0 seconds the classifier returns
`(is_one_shot = true, is_loop = false, confidence = 1.0)` regardless of all
other inputs. -/
theorem detect_sample_type_short_always_oneshot (duration : ℚ)
    (filename : Option String) (preds : Option (List InstrPred)) (sig : Signal)
    (h : duration < 2) :
    detect_sample_type duration filename preds sig = (true, false, 1) := by
  unfold detect_sample_type
  rw [if_pos h]

theorem detect_sample_type_short_always_oneshot_witness :
    (1 : ℚ) < 2 ∧
      detect_sample_type 1 (some "groove_loop.wav")
        (some [{ name := "drum kit", confidence := 9/10 }]) emptySignal
        = (true, false, 1) :=
  ⟨by norm_num,
    detect_sample_type_short_always_oneshot 1 (some "groove_loop.wav")
      (some [{ name := "drum kit", confidence := 9/10 }]) emptySignal (by norm_num)⟩

/-- C3: for every input, exactly one of `is_one_shot` and `is_loop` is true —
each is the boolean negation of the other. -/
theorem detect_sample_type_mutually_exclusive (duration : ℚ)
    (filename : Option String) (preds : Option (List InstrPred)) (sig : Signal) :
    (detect_sample_type duration filename preds sig).1
      = !(detect_sample_type duration filename preds sig).2.1 := by
  unfold detect_sample_type decideType
  split
  · rfl
  · split
    · split <;> rfl
    · split <;> rfl

/-- C1: for duration ≥ 2.0 the sample is classified as a loop exactly when
`loop_score ≥ 3.0` and `loop_score > one_shot_score`; under the percussion
override (percussion evidence fired and the truthy filename shows neither a
loop keyword nor a BPM pattern) the loop threshold is raised to
`loop_score > 8.0`; in every other case it is classified as a one-shot. -/
theorem detect_sample_type_decision_rule (duration : ℚ) (filename : Option String)
    (preds : Option (List InstrPred)) (sig : Signal) (h : 2 ≤ duration) :
    ((detect_sample_type duration filename preds sig).2.1 = true ↔
        (if percOverride (isPercussionSample filename preds) filename then
          8 < (finalScores duration filename preds sig).2 ∧
            (finalScores duration filename preds sig).1
              < (finalScores duration filename preds sig).2
        else
          3 ≤ (finalScores duration filename preds sig).2 ∧
            (finalScores duration filename preds sig).1
              < (finalScores duration filename preds sig).2)) ∧
      ((detect_sample_type duration filename preds sig).1 = true ↔
        ¬ (if percOverride (isPercussionSample filename preds) filename then
          8 < (finalScores duration filename preds sig).2 ∧
            (finalScores duration filename preds sig).1
              < (finalScores duration filename preds sig).2
        else
          3 ≤ (finalScores duration filename preds sig).2 ∧
            (finalScores duration filename preds sig).1
              < (finalScores duration filename preds sig).2)) := by
  have hd : ¬ duration < 2 := not_lt.mpr h
  unfold detect_sample_type decideType
  rw [if_neg hd]
  by_cases ho : percOverride (isPercussionSample filename preds) filename = true
  · simp only [ho, if_true]
    by_cases hc : 8 < (finalScores duration filename preds sig).2 ∧
        (finalScores duration filename preds sig).1
          < (finalScores duration filename preds sig).2
    · simp [hc]
    · simp [hc]
  · simp only [ho, if_false, Bool.not_eq_true] at *
    simp only [ho, Bool.false_eq_true, if_false]
    by_cases hc : 3 ≤ (finalScores duration filename preds sig).2 ∧
        (finalScores duration filename preds sig).1
          < (finalScores duration filename preds sig).2
    · simp [hc]
    · simp [hc]

theorem detect_sample_type_decision_rule_witness :
    (2 : ℚ) ≤ 3 ∧
      (((detect_sample_type 3 none none emptySignal).2.1 = true ↔
        (if percOverride (isPercussionSample none none) none then
          8 < (finalScores 3 none none emptySignal).2 ∧
            (finalScores 3 none none emptySignal).1 < (finalScores 3 none none emptySignal).2
        else
          3 ≤ (finalScores 3 none none emptySignal).2 ∧
            (finalScores 3 none none emptySignal).1
              < (finalScores 3 none none emptySignal).2)) ∧
      ((detect_sample_type 3 none none emptySignal).1 = true ↔
        ¬ (if percOverride (isPercussionSample none none) none then
          8 < (finalScores 3 none none emptySignal).2 ∧
            (finalScores 3 none none emptySignal).1 < (finalScores 3 none none emptySignal).2
        else
          3 ≤ (finalScores 3 none none emptySignal).2 ∧
            (finalScores 3 none none emptySignal).1
              < (finalScores 3 none none emptySignal).2))) :=
  ⟨by norm_num, detect_sample_type_decision_rule 3 none none emptySignal (by norm_num)⟩

/-- C6: for duration ≥ 2.0 the returned confidence is exactly
`|one_shot_score − loop_score| / (one_shot_score + loop_score + 1e-8)` (the
`+1e-8` is the source's guard against dividing by zero when both scores are
zero), and it always lies in `[0, 1]`. -/
theorem detect_sample_type_confidence (duration : ℚ) (filename : Option String)
    (preds : Option (List InstrPred)) (sig : Signal) (h : 2 ≤ duration) :
    (detect_sample_type duration filename preds sig).2.2
        = |(finalScores duration filename preds sig).1
              - (finalScores duration filename preds sig).2|
          / ((finalScores duration filename preds sig).1
              + (finalScores duration filename preds sig).2 + 1/100000000) ∧
      0 ≤ (detect_sample_type duration filename preds sig).2.2 ∧
      (detect_sample_type duration filename preds sig).2.2 ≤ 1 := by
  have hd : ¬ duration < 2 := not_lt.mpr h
  have hval : (detect_sample_type duration filename preds sig).2.2
      = confidenceOf (finalScores duration filename preds sig).1
          (finalScores duration filename preds sig).2 := by
    unfold detect_sample_type
    rw [if_neg hd]
  obtain ⟨ha, hb⟩ := finalScores_nonneg duration filename preds sig
  have hden : 0 < (finalScores duration filename preds sig).1
      + (finalScores duration filename preds sig).2 + 1/100000000 := by
    have : (0 : ℚ) < 1/100000000 := by norm_num
    linarith
  refine ⟨by rw [hval]; rfl, ?_, ?_⟩
  · rw [hval]
    unfold confidenceOf
    exact div_nonneg (abs_nonneg _) hden.le
  · rw [hval]
    unfold confidenceOf
    rw [div_le_one hden]
    refine abs_le.mpr ⟨by linarith, by linarith⟩

theorem detect_sample_type_confidence_witness :
    (2 : ℚ) ≤ 3 ∧
      ((detect_sample_type 3 none none emptySignal).2.2
          = |(finalScores 3 none none emptySignal).1 - (finalScores 3 none none emptySignal).2|
            / ((finalScores 3 none none emptySignal).1
                + (finalScores 3 none none emptySignal).2 + 1/100000000) ∧
        0 ≤ (detect_sample_type 3 none none emptySignal).2.2 ∧
        (detect_sample_type 3 none none emptySignal).2.2 ≤ 1) :=
  ⟨by norm_num, detect_sample_type_confidence 3 none none emptySignal (by norm_num)⟩

/-! ## Tag generation: `generate_tags`

Embedding of `generate_tags` (analyze_audio.py, lines 2399–2434): heuristic
instrument tags with confidence above 0.55, then ML instrument tags with
confidence at least 0.6 after lowercasing, prefix-stripping rewrites and a
blocklist, finally de-duplicated via `list(dict.fromkeys(tags))`, which keeps
the first occurrence of each tag in order. -/

/-- One heuristic instrument prediction in the feature record. -/
structure HeurPred where
  name : String
  confidence : ℚ

/-- One ML instrument classification in the feature record. -/
structure MLPred where
  cls : String
  confidence : ℚ

/-- The non-instrument class names excluded from tags (`tag_blocklist`). -/
def tagBlocklist : List String :=
  ["music", "singing", "song", "speech", "tender music", "sad music",
   "happy music", "music of asia", "music of africa", "music of latin america",
   "pop music", "rock music", "hip hop music", "electronic music",
   "christian music", "wedding music", "new-age music", "independent music",
   "theme music", "background music", "video game music", "christmas music",
   "dance music", "soul music", "gospel music", "disco", "funk",
   "musical instrument", "plucked string instrument", "bowed string instrument",
   "wind instrument, woodwind instrument", "sound effect", "noise"]

/-- The slice of the feature record that `generate_tags` reads. -/
structure TagFeatures where
  instrument_predictions : List HeurPred
  instrument_classes : Option (List MLPred)

/-- The class-name rewriting applied to each ML instrument class. -/
def mlTagName (cls : String) : String :=
  ((cls.toLower).replace "musical instrument, " "").replace "music, " ""

/-- Heuristic tags: prediction names with confidence strictly above 0.55. -/
def heurTags (f : TagFeatures) : List String :=
  (f.instrument_predictions.filter (fun p => decide ((11/20 : ℚ) < p.confidence))).map
    (fun p => p.name)

/-- ML tags: classes at confidence ≥ 0.6 whose rewritten name is neither
blocklisted nor a raw `/m/` identifier. -/
def mlTags (f : TagFeatures) : List String :=
  match f.instrument_classes with
  | none => []
  | some cs =>
    (cs.filter (fun c => decide ((3/5 : ℚ) ≤ c.confidence))).filterMap (fun c =>
      if tagBlocklist.contains (mlTagName c.cls) || substrB "/m/" (mlTagName c.cls)
      then none else some (mlTagName c.cls))

/-- The tag list in append order, before de-duplication. -/
def rawTags (f : TagFeatures) : List String := heurTags f ++ mlTags f

/-- Embedding of `list(dict.fromkeys(tags))`: fold left, appending an element
only when it has not been seen, which keeps first occurrences in order. -/
def dedupPreserveFirst (l : List String) : List String :=
  l.foldl (fun acc x => if x ∈ acc then acc else acc ++ [x]) []

/-- Embedding of `generate_tags`. -/
def generate_tags (f : TagFeatures) : List String := dedupPreserveFirst (rawTags f)

/-- Specification-side definition, following the spec's words "de-duplicates
while preserving first-seen order": keep each element's first occurrence,
deleting the later duplicates. -/
def specFirstSeenDedup : List String → List String
  | [] => []
  | x :: xs => x :: specFirstSeenDedup (xs.filter (fun y => decide (y ≠ x)))
termination_by l => l.length
decreasing_by
  simp only [List.length_cons]
  exact Nat.lt_succ_of_le (List.length_filter_le _ xs)

theorem dedup_foldl_eq (l : List String) :
    ∀ acc : List String,
      l.foldl (fun acc x => if x ∈ acc then acc else acc ++ [x]) acc
        = acc ++ specFirstSeenDedup (l.filter (fun x => decide (x ∉ acc))) := by
  induction l with
  | nil => intro acc; simp [specFirstSeenDedup]
  | cons x xs ih =>
    intro acc
    rw [List.foldl_cons, List.filter_cons]
    by_cases hx : x ∈ acc
    · rw [if_pos hx, if_neg (by simp [hx])]
      exact ih acc
    · rw [if_neg hx, if_pos (by simp [hx])]
      rw [ih (acc ++ [x])]
      have hf : (xs.filter (fun y => decide (y ∉ acc))).filter (fun y => decide (y ≠ x))
          = xs.filter (fun y => decide (y ∉ acc ++ [x])) := by
        rw [List.filter_filter]
        refine List.filter_congr ?_
        intro a _
        by_cases h1 : a ∈ acc <;> by_cases h2 : a = x <;> simp [h1, h2]
      rw [show specFirstSeenDedup (x :: xs.filter (fun y => decide (y ∉ acc)))
            = x :: specFirstSeenDedup
                ((xs.filter (fun y => decide (y ∉ acc))).filter (fun y => decide (y ≠ x)))
          from by rw [specFirstSeenDedup]]
      rw [hf]
      simp [List.append_assoc]

theorem specFirstSeenDedup_sublist :
    ∀ l : List String, (specFirstSeenDedup l).Sublist l
  | [] => by rw [specFirstSeenDedup]
  | x :: xs => by
    rw [specFirstSeenDedup]
    exact ((specFirstSeenDedup_sublist (xs.filter (fun y => decide (y ≠ x)))).trans
      xs.filter_sublist).cons₂ x
termination_by l => l.length
decreasing_by
  simp only [List.length_cons]
  exact Nat.lt_succ_of_le (List.length_filter_le _ xs)

theorem specFirstSeenDedup_mem :
    ∀ l : List String, ∀ a : String, a ∈ specFirstSeenDedup l ↔ a ∈ l
  | [] => by intro a; rw [specFirstSeenDedup]
  | x :: xs => by
    intro a
    rw [specFirstSeenDedup]
    constructor
    · intro h
      rcases List.mem_cons.mp h with h' | h'
      · exact h' ▸ List.mem_cons_self x xs
      · exact List.mem_cons_of_mem x
          ((xs.filter_sublist).subset
            ((specFirstSeenDedup_mem (xs.filter (fun y => decide (y ≠ x))) a).mp h'))
    · intro h
      rcases List.mem_cons.mp h with h' | h'
      · exact h' ▸ List.mem_cons_self _ _
      · by_cases hax : a = x
        · exact hax ▸ List.mem_cons_self _ _
        · refine List.mem_cons_of_mem x ?_
          refine (specFirstSeenDedup_mem (xs.filter (fun y => decide (y ≠ x))) a).mpr ?_
          exact List.mem_filter.mpr ⟨h', by simpa using hax⟩
termination_by l => l.length
decreasing_by
  all_goals simp only [List.length_cons]
  all_goals exact Nat.lt_succ_of_le (List.length_filter_le _ xs)

theorem specFirstSeenDedup_nodup :
    ∀ l : List String, (specFirstSeenDedup l).Nodup
  | [] => by rw [specFirstSeenDedup]; exact List.nodup_nil
  | x :: xs => by
    rw [specFirstSeenDedup]
    refine List.nodup_cons.mpr ⟨?_, specFirstSeenDedup_nodup _⟩
    intro hmem
    have hx : x ∈ xs.filter (fun y => decide (y ≠ x)) :=
      (specFirstSeenDedup_mem (xs.filter (fun y => decide (y ≠ x))) x).mp hmem
    have := (List.mem_filter.mp hx).2
    simp at this
termination_by l => l.length
decreasing_by
  all_goals simp only [List.length_cons]
  all_goals exact Nat.lt_succ_of_le (List.length_filter_le _ xs)

/-- C9: the tag list is the first-seen de-duplication of the appended tags —
it has no duplicates, is a subsequence of the appended tag sequence (hence
preserves its order), and contains exactly the appended tags. -/
theorem generate_tags_nodup_first_seen (f : TagFeatures) :
    generate_tags f = specFirstSeenDedup (rawTags f) ∧
      (generate_tags f).Nodup ∧
      (generate_tags f).Sublist (rawTags f) ∧
      ∀ t, t ∈ generate_tags f ↔ t ∈ rawTags f := by
  have heq : generate_tags f = specFirstSeenDedup (rawTags f) := by
    unfold generate_tags dedupPreserveFirst
    rw [dedup_foldl_eq]
    simp
  refine ⟨heq, ?_, ?_, ?_⟩
  · rw [heq]; exact specFirstSeenDedup_nodup _
  · rw [heq]; exact specFirstSeenDedup_sublist _
  · intro t; rw [heq]; exact specFirstSeenDedup_mem _ t

/-! ## WorkerService: `worker_loop`

Embedding of the body of the `for line in sys.stdin` loop of `worker_loop`
(analyze_audio.py, lines 2437–2523) for one processed (nonempty, stripped)
line.  JSON values are modelled by `PyVal`; the outcome of `json.loads` on
the line (a parsed value, or a `JSONDecodeError`) is the abstract input, since
the JSON parser is an external library.  The filesystem checks
(`os.path.exists`, `os.path.isfile`) and `analyze_audio` itself are modelled
as environment functions returning `Except`, whose `error` case models a
raised exception: exceptions from the path checks propagate to the loop's
generic handler (`Worker error: …`), while `analyze_audio` exceptions are
caught by the dedicated inner handler.  The returned pair is the response
object written for the line and the flag telling whether the loop continues
(`shutdown` breaks it). -/

/-- A parsed JSON/Python value. -/
inductive PyVal where
  | pyNone : PyVal
  | pyBool : Bool → PyVal
  | pyStr : String → PyVal
  | pyNum : ℚ → PyVal
  | pyList : List PyVal → PyVal
  | pyDict : List (String × PyVal) → PyVal

/-- Python `str()` of a parsed value, used only inside error messages. -/
def pyStrOf : PyVal → String
  | .pyNone => "None"
  | .pyBool true => "True"
  | .pyBool false => "False"
  | .pyStr s => s
  | .pyNum q => toString q
  | .pyList _ => "[...]"
  | .pyDict _ => "\x7b...\x7d"

/-- Python truthiness of a parsed value (`if not audio_path:`). -/
def pyTruthy : PyVal → Bool
  | .pyNone => false
  | .pyBool b => b
  | .pyStr s => !s.isEmpty
  | .pyNum q => decide (q ≠ 0)
  | .pyList xs => !xs.isEmpty
  | .pyDict fs => !fs.isEmpty

/-- Python `v == "s"` for a parsed value: true only for the equal string. -/
def isStrEq : PyVal → String → Bool
  | .pyStr t, s => t == s
  | _, _ => false

/-- Python `request.get(k, dflt)` on the parsed object (keys are unique after
`json.loads`). -/
def dictGet (fs : List (String × PyVal)) (k : String) (dflt : PyVal) : PyVal :=
  (fs.lookup k).getD dflt

/-- The external effects the loop body invokes.  `Except.error` models a
raised exception carrying `str(e)`. -/
structure WorkerEnv where
  pathExists : PyVal → Except String Bool
  pathIsFile : PyVal → Except String Bool
  analyzeAudio : PyVal → PyVal → PyVal → Except String PyVal

/-- Outcome of `json.loads` on one nonempty line. -/
inductive LineOutcome where
  | decodeError : String → LineOutcome
  | value : PyVal → LineOutcome

/-- A response object `{"id": …, key: …}` as the loop constructs them. -/
def mkResp (reqId : PyVal) (key : String) (v : PyVal) : PyVal :=
  PyVal.pyDict [("id", reqId), (key, v)]

/-- The `cmd == "analyze"` branch of the loop body. -/
def handleAnalyze (env : WorkerEnv) (reqId : PyVal) (fs : List (String × PyVal)) : PyVal :=
  if !pyTruthy (dictGet fs "audio_path" .pyNone) then
    mkResp reqId "error" (.pyStr "Missing audio_path")
  else
    match env.pathExists (dictGet fs "audio_path" .pyNone) with
    | .error e => mkResp reqId "error" (.pyStr ("Worker error: " ++ e))
    | .ok false => mkResp reqId "error"
        (.pyStr ("File not found: " ++ pyStrOf (dictGet fs "audio_path" .pyNone)))
    | .ok true =>
      match env.pathIsFile (dictGet fs "audio_path" .pyNone) with
      | .error e => mkResp reqId "error" (.pyStr ("Worker error: " ++ e))
      | .ok false => mkResp reqId "error"
          (.pyStr ("Path is not a file: " ++ pyStrOf (dictGet fs "audio_path" .pyNone)))
      | .ok true =>
        match env.analyzeAudio (dictGet fs "audio_path" .pyNone)
            (dictGet fs "level" (.pyStr "advanced")) (dictGet fs "filename" .pyNone) with
        | .ok r => mkResp reqId "result" r
        | .error e => mkResp reqId "error" (.pyStr e)

/-- The loop body for one processed line: returns the response written and
whether the loop continues.  A parsed non-object value hits `request.get` and
raises `AttributeError`, handled by the generic `except Exception` clause. -/
def worker_loop_step (env : WorkerEnv) (o : LineOutcome) : PyVal × Bool :=
  match o with
  | .decodeError msg =>
    (PyVal.pyDict [("id", .pyNone), ("error", .pyStr ("Invalid JSON: " ++ msg))], true)
  | .value (.pyDict fs) =>
    if isStrEq (dictGet fs "cmd" (.pyStr "analyze")) "ping" then
      (mkResp (dictGet fs "id" .pyNone) "result" (.pyStr "pong"), true)
    else if isStrEq (dictGet fs "cmd" (.pyStr "analyze")) "shutdown" then
      (mkResp (dictGet fs "id" .pyNone) "result" (.pyStr "bye"), false)
    else if isStrEq (dictGet fs "cmd" (.pyStr "analyze")) "analyze" then
      (handleAnalyze env (dictGet fs "id" .pyNone) fs, true)
    else
      (mkResp (dictGet fs "id" .pyNone) "error"
        (.pyStr ("Unknown command: " ++ pyStrOf (dictGet fs "cmd" (.pyStr "analyze")))), true)
  | .value _ =>
    (PyVal.pyDict [("id", .pyNone),
      ("error", .pyStr "Worker error: request object has no attribute get")], true)

/-- Number of fields of a response object carrying the given key. -/
def keyCount (v : PyVal) (k : String) : ℕ :=
  match v with
  | .pyDict fs => (fs.filter (fun p => p.1 == k)).length
  | _ => 0

theorem handleAnalyze_one_key (env : WorkerEnv) (reqId : PyVal)
    (fs : List (String × PyVal)) :
    (∃ fields, handleAnalyze env reqId fs = PyVal.pyDict fields) ∧
      keyCount (handleAnalyze env reqId fs) "result"
        + keyCount (handleAnalyze env reqId fs) "error" = 1 := by
  unfold handleAnalyze
  split
  · exact ⟨⟨_, rfl⟩, rfl⟩
  · split
    · exact ⟨⟨_, rfl⟩, rfl⟩
    · exact ⟨⟨_, rfl⟩, rfl⟩
    · split
      · exact ⟨⟨_, rfl⟩, rfl⟩
      · exact ⟨⟨_, rfl⟩, rfl⟩
      · split
        · exact ⟨⟨_, rfl⟩, rfl⟩
        · exact ⟨⟨_, rfl⟩, rfl⟩

/-- C8: the response written for every processed inbound line — ping,
shutdown, analyze (with every path/analysis outcome), unknown command, parsed
non-object, or a JSON decode error — is a single JSON object with exactly one
of the keys `result` and `error`. -/
theorem worker_loop_response_exactly_one_key (env : WorkerEnv) (o : LineOutcome) :
    (∃ fields, (worker_loop_step env o).1 = PyVal.pyDict fields) ∧
      keyCount (worker_loop_step env o).1 "result"
        + keyCount (worker_loop_step env o).1 "error" = 1 := by
  cases o with
  | decodeError msg => exact ⟨⟨_, rfl⟩, rfl⟩
  | value v =>
    cases v with
    | pyDict fs =>
      unfold worker_loop_step
      repeat' split
      all_goals first
        | exact handleAnalyze_one_key env _ _
        | exact ⟨⟨_, rfl⟩, rfl⟩
    | pyNone => exact ⟨⟨_, rfl⟩, rfl⟩
    | pyBool b => exact ⟨⟨_, rfl⟩, rfl⟩
    | pyStr s => exact ⟨⟨_, rfl⟩, rfl⟩
    | pyNum q => exact ⟨⟨_, rfl⟩, rfl⟩
    | pyList xs => exact ⟨⟨_, rfl⟩, rfl⟩

/-- C10: a successfully parsed request object with no `cmd` field is
dispatched to the analyze handler (the command defaults to `analyze`), not
rejected as an unknown command. -/
theorem worker_loop_missing_cmd_defaults_analyze (env : WorkerEnv)
    (fs : List (String × PyVal)) (h : fs.lookup "cmd" = none) :
    worker_loop_step env (.value (.pyDict fs))
      = (handleAnalyze env (dictGet fs "id" .pyNone) fs, true) := by
  have hc : dictGet fs "cmd" (.pyStr "analyze") = .pyStr "analyze" := by
    unfold dictGet
    rw [h]
    rfl
  show (if isStrEq (dictGet fs "cmd" (.pyStr "analyze")) "ping" then
      (mkResp (dictGet fs "id" .pyNone) "result" (.pyStr "pong"), true)
    else if isStrEq (dictGet fs "cmd" (.pyStr "analyze")) "shutdown" then
      (mkResp (dictGet fs "id" .pyNone) "result" (.pyStr "bye"), false)
    else if isStrEq (dictGet fs "cmd" (.pyStr "analyze")) "analyze" then
      (handleAnalyze env (dictGet fs "id" .pyNone) fs, true)
    else
      (mkResp (dictGet fs "id" .pyNone) "error"
        (.pyStr ("Unknown command: "
          ++ pyStrOf (dictGet fs "cmd" (.pyStr "analyze")))), true))
    = (handleAnalyze env (dictGet fs "id" .pyNone) fs, true)
  rw [hc]
  rfl

/-- A concrete environment for the C10 witness: both path checks succeed and
analysis returns a result. -/
def envOk : WorkerEnv :=
  { pathExists := fun _ => .ok true,
    pathIsFile := fun _ => .ok true,
    analyzeAudio := fun _ _ _ => .ok .pyNone }

theorem worker_loop_missing_cmd_defaults_analyze_witness :
    ([("audio_path", PyVal.pyStr "a.wav")].lookup "cmd" = none) ∧
      worker_loop_step envOk (.value (.pyDict [("audio_path", PyVal.pyStr "a.wav")]))
        = (handleAnalyze envOk
            (dictGet [("audio_path", PyVal.pyStr "a.wav")] "id" .pyNone)
            [("audio_path", PyVal.pyStr "a.wav")], true) :=
  ⟨rfl, worker_loop_missing_cmd_defaults_analyze envOk
    [("audio_path", PyVal.pyStr "a.wav")] rfl⟩
